import Mathlib

/-!
Verification of the node-amqp-bus client/listener core.

The Lean definitions below are shallow embeddings of the JavaScript sources:
* `src/lib/client.js` — bus client: consume/ack pipeline, connection
  lifecycle, reconnect-on-error;
* `src/unnamed/part_004` — legacy bus client variant whose handlers may
  signal completion through a callback;
* `src/lib/listener.js` — bus listener: handler registry, activation,
  per-queue dispatch.

External collaborators (the amqplib transport, JSON decoding, timers) are
modelled at their interface boundary: transport calls become recorded
actions, JSON decoding becomes an explicit partial decode function, and the
event emitter becomes a recorded list of emitted events.
-/

namespace AmqpBus

/-! ### Message and channel model (interface boundary of amqplib) -/

/-- Delivery metadata (`message.fields`); carries at least the routing key. -/
structure Fields where
  routingKey : String
deriving DecidableEq, Repr

/-- A raw delivered message: payload bytes (as the string
`message.content.toString()`) plus delivery metadata. -/
structure Message where
  content : String
  fields : Fields
deriving DecidableEq, Repr

/-- Channel-level acknowledgement calls issued by the consume callback
(`channel.ack(message)` / `channel.nack(message)`). -/
inductive ChannelAction
  | ack
  | nack
deriving DecidableEq, Repr

/-- The two kinds of consume-side failures reported by the client. -/
inductive ErrKind
  | invalidJson
  | handlerFailed
deriving DecidableEq, Repr

/-- Events emitted on the bus client (`busClient.emit(...)`). -/
inductive ClientEvent
  | consumeError (kind : ErrKind)
  | connected
  | connectionError
deriving DecidableEq, Repr

/-! ### Consume pipeline of `src/lib/client.js` (lines 77–98)

The handler is called with the decoded content and the message fields; it
either runs to completion (the promise resolves) or throws. -/

/-- Outcome of a handler invocation in the current client: the wrapped
generator either resolves (`success`) or throws (`failure`). -/
inductive HandlerResult
  | success
  | failure
deriving DecidableEq, Repr

/-- Everything observable about one run of `_consumeMessage`:
the channel calls issued, the events emitted on the client, and the
handler invocations (with their arguments). -/
structure ConsumeOutcome (α : Type) where
  actions : List ChannelAction
  events : List ClientEvent
  handlerCalls : List (α × Fields)
deriving DecidableEq, Repr

/-- `_consumeMessage` of `src/lib/client.js` (lines 78–97).
`decode` is the interface boundary for `JSON.parse` (`none` = parse threw).
On decode failure: emit `consume_error` (invalid JSON) and `ack`; the
handler is never called.  On decode success: run the handler; if it throws,
emit `consume_error` (handler failed) and `nack`; otherwise `ack`.
All failures are caught, so the function is total: nothing propagates out
of the consume callback. -/
def consumeMessage {α : Type} (decode : String → Option α)
    (handler : α → Fields → HandlerResult) (message : Message) :
    ConsumeOutcome α :=
  match decode message.content with
  | none =>
      { actions := [.ack],
        events := [.consumeError .invalidJson],
        handlerCalls := [] }
  | some content =>
      match handler content message.fields with
      | .failure =>
          { actions := [.nack],
            events := [.consumeError .handlerFailed],
            handlerCalls := [(content, message.fields)] }
      | .success =>
          { actions := [.ack],
            events := [],
            handlerCalls := [(content, message.fields)] }

/-! ### Consume pipeline of `src/unnamed/part_004` (lines 71–102)

The legacy variant passes a completion callback as third argument; the
handler may invoke it with an error (requeue) or without (acknowledge),
and may also simply complete or throw.  A `messageAcknowledgementHandled`
flag suppresses the trailing `ack` once the callback has been invoked. -/

/-- One run of a legacy handler, as its effect on the consume callback:
`cbCall` records the completion-callback invocation, if any (`some none` =
`callback()`, `some (some ())` = `callback(err)`); `throws` records whether
the handler body then throws. -/
structure CbHandlerRun where
  cbCall : Option (Option Unit)
  throws : Bool
deriving DecidableEq, Repr

/-- A legacy handler run signals failure when it throws or invokes the
completion callback with an error argument. -/
def CbHandlerRun.fails (r : CbHandlerRun) : Bool :=
  r.throws || (match r.cbCall with
    | some (some _) => true
    | _ => false)

/-- Observable outcome of one run of the legacy `_consumeMessage`:
channel calls issued and logger lines written (this variant logs instead of
emitting events). -/
structure CbConsumeOutcome where
  actions : List ChannelAction
  logs : List ErrKind
deriving DecidableEq, Repr

/-- `_consumeMessage` of `src/unnamed/part_004` (lines 72–101), including
the `messageAcknowledgementHandled` flag.  On decode failure: log and
`ack`.  Otherwise run the handler: a completion-callback invocation sets
the flag and immediately acks (no error) or nacks (error); if the handler
then throws, the catch block nacks; if it completes, the trailing `ack`
fires only when the flag is still unset. -/
def consumeMessageCb {α : Type} (decode : String → Option α)
    (handler : α → Fields → CbHandlerRun) (message : Message) :
    CbConsumeOutcome :=
  match decode message.content with
  | none => { actions := [.ack], logs := [.invalidJson] }
  | some content =>
      let run := handler content message.fields
      let cbActions : List ChannelAction :=
        match run.cbCall with
        | none => []
        | some none => [.ack]
        | some (some _) => [.nack]
      let cbLogs : List ErrKind :=
        match run.cbCall with
        | some (some _) => [.handlerFailed]
        | _ => []
      let flag : Bool := run.cbCall.isSome
      if run.throws then
        { actions := cbActions ++ [.nack], logs := cbLogs ++ [.handlerFailed] }
      else if flag then
        { actions := cbActions, logs := cbLogs }
      else
        { actions := cbActions ++ [.ack], logs := cbLogs }

/-! ### Handler registry of `src/lib/listener.js` (lines 17–43)

JS objects with string keys are modelled as association lists in
key-insertion order, which is the enumeration order of `Object.keys` for
the routing-key/queue-name keys used here. -/

/-- First-match lookup in an association list (JS property read). -/
def lookupEntry {β : Type} (key : String) : List (String × β) → Option β
  | [] => none
  | (k, v) :: rest => if k = key then some v else lookupEntry key rest

/-- JS property assignment `m[key] = v`: an existing key keeps its position
and gets the new value; a new key is appended (insertion order). -/
def setEntry {β : Type} (key : String) (v : β) :
    List (String × β) → List (String × β)
  | [] => [(key, v)]
  | (k, w) :: rest =>
      if k = key then (k, v) :: rest else (k, w) :: setEntry key v rest

/-- The listener's handler registry: the `queues` array and the `handlers`
object captured by `createListener`.  `H` is the type of handler values
(JS function objects, identified abstractly). -/
structure Registry (H : Type) where
  queues : List String
  handlers : List (String × List (String × H))
deriving DecidableEq, Repr

/-- The registry of a freshly created listener (lines 19–20). -/
def Registry.empty (H : Type) : Registry H := ⟨[], []⟩

/-- `addHandler` (src/lib/listener.js lines 37–43): if the queue has no
handler map yet, push the queue onto `queues` and create an empty map;
then assign `handlers[queue][key] = handler`. -/
def addHandler {H : Type} (r : Registry H) (queue key : String) (h : H) :
    Registry H :=
  match lookupEntry queue r.handlers with
  | none =>
      { queues := r.queues ++ [queue],
        handlers := setEntry queue [(key, h)] r.handlers }
  | some m =>
      { queues := r.queues,
        handlers := setEntry queue (setEntry key h m) r.handlers }

/-- The handler registered for a (queue, routing key) pair:
`handlers[queue][key]`. -/
def lookupHandler {H : Type} (r : Registry H) (queue key : String) :
    Option H :=
  match lookupEntry queue r.handlers with
  | none => none
  | some m => lookupEntry key m

/-- `Object.keys(handlers[queue])`: the routing keys registered under a
queue, in insertion order. -/
def queueKeys {H : Type} (r : Registry H) (queue : String) : List String :=
  match lookupEntry queue r.handlers with
  | none => []
  | some m => m.map Prod.fst

/-- Registry well-formedness: the handler map has exactly the queues of the
`queues` array (in order), queue names are distinct, and the routing keys
under each queue are distinct. -/
def Registry.wf {H : Type} (r : Registry H) : Prop :=
  r.handlers.map Prod.fst = r.queues ∧ r.queues.Nodup ∧
    ∀ p ∈ r.handlers, (p.2.map Prod.fst).Nodup

instance {H : Type} [DecidableEq H] (r : Registry H) : Decidable r.wf := by
  unfold Registry.wf; infer_instance

/-- Folding a whole sequence of `addHandler` calls over the fresh registry. -/
def applyCalls {H : Type} (calls : List (String × String × H)) : Registry H :=
  calls.foldl (fun r c => addHandler r c.1 c.2.1 c.2.2) (Registry.empty H)

/-- Deduplication keeping first occurrences, continuing from `acc`. -/
def firstSeenFrom (acc : List String) : List String → List String
  | [] => acc
  | q :: rest => firstSeenFrom (if q ∈ acc then acc else acc ++ [q]) rest

/-- The distinct elements of a list, in first-occurrence order. -/
def firstSeen (l : List String) : List String := firstSeenFrom [] l

/-! Association-list lemmas used for the registry invariant. -/

theorem lookupEntry_setEntry_self {β : Type} (key : String) (v : β)
    (l : List (String × β)) : lookupEntry key (setEntry key v l) = some v := by
  induction l with
  | nil => simp [setEntry, lookupEntry]
  | cons p rest ih =>
    rcases p with ⟨k, w⟩
    by_cases h : k = key
    · subst h; simp [setEntry, lookupEntry]
    · simp [setEntry, lookupEntry, h, ih]

theorem lookupEntry_eq_none_iff {β : Type} (key : String)
    (l : List (String × β)) :
    lookupEntry key l = none ↔ key ∉ l.map Prod.fst := by
  induction l with
  | nil => simp [lookupEntry]
  | cons p rest ih =>
    rcases p with ⟨k, w⟩
    by_cases h : k = key
    · subst h; simp [lookupEntry]
    · simp [lookupEntry, h, ih, Ne.symm h]

theorem lookupEntry_mem {β : Type} {key : String} {l : List (String × β)}
    {v : β} (h : lookupEntry key l = some v) : (key, v) ∈ l := by
  induction l with
  | nil => simp [lookupEntry] at h
  | cons p rest ih =>
    rcases p with ⟨k, w⟩
    by_cases hk : k = key
    · subst hk
      simp [lookupEntry] at h
      subst h; exact List.mem_cons_self _ _
    · simp [lookupEntry, hk] at h
      exact List.mem_cons_of_mem _ (ih h)

theorem map_fst_setEntry {β : Type} (key : String) (v : β)
    (l : List (String × β)) :
    (setEntry key v l).map Prod.fst =
      if key ∈ l.map Prod.fst then l.map Prod.fst
      else l.map Prod.fst ++ [key] := by
  induction l with
  | nil => simp [setEntry]
  | cons p rest ih =>
    rcases p with ⟨k, w⟩
    by_cases h : k = key
    · subst h; simp [setEntry]
    · by_cases h2 : key ∈ rest.map Prod.fst <;>
        simp [setEntry, h, ih, h2, Ne.symm h]

theorem mem_setEntry {β : Type} {p : String × β} {key : String} {v : β}
    {l : List (String × β)} (hp : p ∈ setEntry key v l) :
    p ∈ l ∨ p = (key, v) := by
  induction l with
  | nil => simp [setEntry] at hp; exact Or.inr hp
  | cons q rest ih =>
    rcases q with ⟨k, w⟩
    by_cases h : k = key
    · subst h
      simp [setEntry] at hp
      rcases hp with hp | hp
      · exact Or.inr (by simp [hp])
      · exact Or.inl (List.mem_cons_of_mem _ hp)
    · simp [setEntry, h] at hp
      rcases hp with hp | hp
      · exact Or.inl (by simp [hp])
      · rcases ih hp with hm | he
        · exact Or.inl (List.mem_cons_of_mem _ hm)
        · exact Or.inr he

/-! Registry lemmas. -/

theorem addHandler_queues {H : Type} (r : Registry H) (q k : String) (h : H)
    (hmap : r.handlers.map Prod.fst = r.queues) :
    (addHandler r q k h).queues =
      if q ∈ r.queues then r.queues else r.queues ++ [q] := by
  unfold addHandler
  rcases hl : lookupEntry q r.handlers with _ | m
  · have hq : q ∉ r.queues :=
      hmap ▸ (lookupEntry_eq_none_iff q r.handlers).mp hl
    simp [hq]
  · have hq : q ∈ r.queues := by
      have hmem : q ∈ r.handlers.map Prod.fst :=
        List.mem_map.mpr ⟨(q, m), lookupEntry_mem hl, rfl⟩
      rwa [hmap] at hmem
    simp [hq]

theorem addHandler_wf {H : Type} {r : Registry H} (hwf : r.wf)
    (q k : String) (h : H) : (addHandler r q k h).wf := by
  obtain ⟨h1, h2, h3⟩ := hwf
  unfold addHandler
  rcases hl : lookupEntry q r.handlers with _ | m
  · have hq : q ∉ r.queues :=
      h1 ▸ (lookupEntry_eq_none_iff q r.handlers).mp hl
    have hq' : q ∉ r.handlers.map Prod.fst := h1 ▸ hq
    refine ⟨?_, ?_, ?_⟩
    · rw [map_fst_setEntry, if_neg hq', h1]
    · simp [List.nodup_append, h2, hq]
    · intro p hp
      rcases mem_setEntry hp with hmem | heq
      · exact h3 p hmem
      · subst heq; simp
  · have hq' : q ∈ r.handlers.map Prod.fst :=
      List.mem_map.mpr ⟨(q, m), lookupEntry_mem hl, rfl⟩
    refine ⟨?_, h2, ?_⟩
    · rw [map_fst_setEntry, if_pos hq', h1]
    · intro p hp
      rcases mem_setEntry hp with hmem | heq
      · exact h3 p hmem
      · subst heq
        have hm : (m.map Prod.fst).Nodup := h3 (q, m) (lookupEntry_mem hl)
        show ((setEntry k h m).map Prod.fst).Nodup
        rw [map_fst_setEntry]
        by_cases hk : k ∈ m.map Prod.fst
        · simpa [hk] using hm
        · simp [hk, List.nodup_append, hm]

theorem lookupHandler_addHandler_self {H : Type} (r : Registry H)
    (q k : String) (h : H) :
    lookupHandler (addHandler r q k h) q k = some h := by
  unfold addHandler lookupHandler
  rcases hl : lookupEntry q r.handlers with _ | m <;>
    simp [hl, lookupEntry_setEntry_self, lookupEntry]

theorem lookup_addHandler_isSome {H : Type} (r : Registry H)
    (q k : String) (h : H) :
    ∃ m, lookupEntry q (addHandler r q k h).handlers = some m := by
  unfold addHandler
  rcases hl : lookupEntry q r.handlers with _ | m
  · exact ⟨[(k, h)], by simp [hl, lookupEntry_setEntry_self]⟩
  · exact ⟨setEntry k h m, by simp [hl, lookupEntry_setEntry_self]⟩

theorem addHandler_queues_of_lookup_some {H : Type} (r : Registry H)
    (q k : String) (h : H) (m : List (String × H))
    (hm : lookupEntry q r.handlers = some m) :
    (addHandler r q k h).queues = r.queues := by
  unfold addHandler; simp [hm]

theorem foldl_addHandler_queues {H : Type}
    (calls : List (String × String × H)) (r : Registry H) (hwf : r.wf) :
    (calls.foldl (fun r c => addHandler r c.1 c.2.1 c.2.2) r).queues =
      firstSeenFrom r.queues (calls.map Prod.fst) ∧
    (calls.foldl (fun r c => addHandler r c.1 c.2.1 c.2.2) r).wf := by
  induction calls generalizing r with
  | nil => exact ⟨rfl, hwf⟩
  | cons c rest ih =>
    have hw' := addHandler_wf hwf c.1 c.2.1 c.2.2
    have hq := addHandler_queues r c.1 c.2.1 c.2.2 hwf.1
    obtain ⟨ihq, ihw⟩ := ih (addHandler r c.1 c.2.1 c.2.2) hw'
    refine ⟨?_, by rw [List.foldl_cons]; exact ihw⟩
    rw [List.foldl_cons, ihq, hq]
    simp [firstSeenFrom]

theorem firstSeenFrom_nodup (l : List String) (acc : List String)
    (hacc : acc.Nodup) : (firstSeenFrom acc l).Nodup := by
  induction l generalizing acc with
  | nil => exact hacc
  | cons q rest ih =>
    show (firstSeenFrom (if q ∈ acc then acc else acc ++ [q]) rest).Nodup
    by_cases h : q ∈ acc
    · rw [if_pos h]; exact ih acc hacc
    · rw [if_neg h]
      exact ih _ (by simp [List.nodup_append, hacc, h])

/-! ### Per-queue dispatch of `src/lib/listener.js` (lines 67–76) -/

/-- Events emitted on the listener instance; `γ` is the type of decoded
message contents. -/
inductive ListenerEvent (γ : Type)
  | connect
  | unhandle (queue : String) (message : γ) (fields : Fields)
  | handleError
deriving DecidableEq, Repr

/-- Everything observable about one run of the per-queue dispatch function:
the registered handlers invoked (with no duplicates possible, invocation is
recorded in order), the listener events emitted, and the completion signal
returned to the client's consume wrapper. -/
structure DispatchResult (γ H : Type) where
  invoked : List H
  events : List (ListenerEvent γ)
  result : HandlerResult
deriving DecidableEq, Repr

/-- `createConsumeHandler` (src/lib/listener.js lines 67–76): look up
`handlers[queue][fields.routingKey]`; if absent, emit `unhandle` and
substitute `() => Promise.resolve()` (an already-succeeded completion);
then invoke the chosen handler with `(message, fields)` and return its
completion signal.  `run` is the interface boundary for invoking a stored
handler value. -/
def createConsumeHandler {γ H : Type} (r : Registry H)
    (run : H → γ → Fields → HandlerResult) (queue : String)
    (message : γ) (fields : Fields) : DispatchResult γ H :=
  match lookupHandler r queue fields.routingKey with
  | some h => { invoked := [h], events := [], result := run h message fields }
  | none =>
      { invoked := [],
        events := [.unhandle queue message fields],
        result := .success }

/-! ### Listener activation, `listen` of `src/lib/listener.js` (lines 52–65) -/

/-- Calls the listener issues during `listen`, in order.  `opts` is the
options argument forwarded to `setupQueue`, abstracted to a token. -/
inductive LAction
  | createClient
  | emitConnect
  | subscribeConsumeError
  | setupQueue (exchange queue key : String) (opts : Nat)
  | consume (queue : String)
deriving DecidableEq, Repr

/-- Listener activation state: `instance.client` (`none` until the first
`listen` call completes; clients are identified abstractly). -/
structure ListenerState where
  client : Option Nat
deriving DecidableEq, Repr

/-- `listen` (src/lib/listener.js lines 52–65): if a client is already
held, return at once; otherwise obtain a client (`options.client`, modelled
by `injected`, or else create one, `newClientId`), emit `connect`,
subscribe to the client's `consume_error`, and then, for every queue in
registry order, call `setupQueue` for each routing key under that queue
followed by a single `consume` for the queue (whose handler is the
per-queue dispatch `createConsumeHandler queue`). -/
def listen {H : Type} (st : ListenerState) (r : Registry H)
    (injected : Option Nat) (newClientId : Nat)
    (exchange : String) (opts : Nat) : ListenerState × List LAction :=
  if st.client.isSome then (st, [])
  else
    (⟨some (injected.getD newClientId)⟩,
     (if injected.isSome then [] else [LAction.createClient]) ++
       [LAction.emitConnect, LAction.subscribeConsumeError] ++
       r.queues.flatMap (fun q =>
         (queueKeys r q).map (fun k => LAction.setupQueue exchange q k opts) ++
           [LAction.consume q]))

/-! Counting lemmas for the activation trace. -/

theorem count_bind_eq_sum {α β : Type} [DecidableEq β] (l : List α)
    (f : α → List β) (a : β) :
    (l.flatMap f).count a = (l.map (fun x => (f x).count a)).sum := by
  induction l with
  | nil => simp
  | cons x rest ih => simp [List.count_append, ih]

theorem count_bind_zero {α β : Type} [DecidableEq β] (l : List α)
    (f : α → List β) (a : β) (hz : ∀ x ∈ l, (f x).count a = 0) :
    (l.flatMap f).count a = 0 := by
  induction l with
  | nil => simp
  | cons x rest ih =>
    simp only [List.flatMap_cons, List.count_append]
    rw [hz x (List.mem_cons_self _ _), ih (fun y hy => hz y (List.mem_cons_of_mem _ hy))]

theorem count_bind_one {α β : Type} [DecidableEq α] [DecidableEq β]
    (l : List α) (f : α → List β) (a : β) (q : α) (hn : l.Nodup)
    (hq : q ∈ l) (hone : (f q).count a = 1)
    (hother : ∀ x ∈ l, x ≠ q → (f x).count a = 0) :
    (l.flatMap f).count a = 1 := by
  induction l with
  | nil => cases hq
  | cons x rest ih =>
    simp only [List.flatMap_cons, List.count_append]
    rcases List.mem_cons.mp hq with hx | hx
    · subst hx
      rw [hone, count_bind_zero rest f a]
      intro y hy
      exact hother y (List.mem_cons_of_mem _ hy)
        (fun hyq => (List.nodup_cons.mp hn).1 (hyq ▸ hy))
    · rw [hother x (List.mem_cons_self _ _)
          (fun hxq => (List.nodup_cons.mp hn).1 (hxq ▸ hx)),
        ih (List.nodup_cons.mp hn).2 hx]
      intro y hy hyq
      exact hother y (List.mem_cons_of_mem _ hy) hyq

theorem count_eq_one_of_nodup_mem {α : Type} [DecidableEq α] {l : List α}
    {a : α} (hn : l.Nodup) (ha : a ∈ l) : l.count a = 1 := by
  induction l with
  | nil => cases ha
  | cons x rest ih =>
    rcases List.mem_cons.mp ha with hx | hx
    · subst hx
      rw [List.count_cons_self,
        List.count_eq_zero.mpr (List.nodup_cons.mp hn).1]
    · rw [List.count_cons_of_ne (by rintro rfl; exact (List.nodup_cons.mp hn).1 hx),
        ih (List.nodup_cons.mp hn).2 hx]

theorem count_map_of_inj {α β : Type} [DecidableEq α] [DecidableEq β]
    (l : List α) (f : α → β) (hf : ∀ a b, f a = f b → a = b) (x : α) :
    (l.map f).count (f x) = l.count x := by
  induction l with
  | nil => simp
  | cons y rest ih =>
    by_cases h : y = x
    · subst h; simp [List.count_cons, ih]
    · have hne : f y ≠ f x := fun he => h (hf _ _ he)
      simp [List.count_cons, ih, h, hne]

/-- The routing keys under a queue of a well-formed registry are distinct. -/
theorem queueKeys_nodup {H : Type} {r : Registry H} (hwf : r.wf)
    (q : String) : (queueKeys r q).Nodup := by
  unfold queueKeys
  rcases hl : lookupEntry q r.handlers with _ | m
  · exact List.nodup_nil
  · exact hwf.2.2 (q, m) (lookupEntry_mem hl)

/-! ### Client connection lifecycle, `src/lib/client.js` (lines 21–43, 129–148) -/

/-- JS `options.x || DEFAULT`: the default is taken when the option is
absent or falsy (0). -/
def orDefault (v : Option Nat) (d : Nat) : Nat :=
  match v with
  | none => d
  | some n => if n = 0 then d else n

/-- Resolved client configuration (lines 22–24): heartbeat defaults to 10,
reconnect timeout to 1000 ms. -/
structure ClientOptions where
  heartbeat : Nat
  reconnectTimeout : Nat
deriving DecidableEq, Repr

/-- Option resolution in `createClient` (src/lib/client.js lines 22–24). -/
def resolveOptions (heartbeat reconnectTimeout : Option Nat) : ClientOptions :=
  ⟨orDefault heartbeat 10, orDefault reconnectTimeout 1000⟩

/-- The constructor tag of the value delivered with a connection `error`
event (`err.constructor`): the spurious first emission carries the event
emitter itself. -/
inductive JsCtor
  | eventEmitterCtor
  | errorCtor
  | otherCtor
deriving DecidableEq, Repr

/-- The payload of a connection-level error event, abstracted to the only
attribute `_onDisconnection` inspects: its constructor. -/
structure JsErrPayload where
  ctor : JsCtor
deriving DecidableEq, Repr

/-- Actions taken by the disconnection handler. -/
inductive DisconnectAction
  | emitConnectionError
  | scheduleReconnect (delay : Nat)
deriving DecidableEq, Repr

/-- `_onDisconnection` (src/lib/client.js lines 141–148): the spurious
emission whose payload is the event emitter itself
(`err.constructor === EventEmitter`) is ignored; any other payload makes
the client emit `connection_error` and schedule `_reconnect` via
`setTimeout(_reconnect, options.reconnectTimeout)`. -/
def onDisconnection (opts : ClientOptions) (err : JsErrPayload) :
    List DisconnectAction :=
  if err.ctor = .eventEmitterCtor then []
  else [.emitConnectionError, .scheduleReconnect opts.reconnectTimeout]

/-- Connection-level state of the bus client: the `connection` and
`channel` fields (handles identified abstractly, `none` = JS `null`). -/
structure ClientConnState where
  connection : Option Nat
  channel : Option Nat
deriving DecidableEq, Repr

/-- JS runtime errors surfacing from the embedded client methods. -/
inductive JsRuntimeError
  | typeError
deriving DecidableEq, Repr

/-- `close` (src/lib/client.js lines 35–39): `yield this.connection.close()`
then set both handles to `null`.  When `connection` is already `null`, the
property read `this.connection.close` throws a `TypeError` (the transport
`close()` itself is modelled as succeeding). -/
def close (st : ClientConnState) : Except JsRuntimeError ClientConnState :=
  match st.connection with
  | none => .error .typeError
  | some _ => .ok ⟨none, none⟩

/-- Trace of one `_connect` run (src/lib/client.js lines 129–136): the
client events emitted, the reconnect timers set, whether the connection
`error` observer was (re-)registered, and whether the run's promise
rejected with no handler attached. -/
structure ConnectTrace where
  events : List ClientEvent
  scheduledReconnects : List Nat
  errorObserverRegistered : Bool
  rejected : Bool
deriving DecidableEq, Repr

/-- `_connect` (src/lib/client.js lines 129–136) as run by a scheduled
reconnect (`setTimeout(co.wrap(_connect), ...)`).  `connectResult` and
`channelResult` are the interface boundary of `amqplib.connect` and
`connection.createChannel()` (`.error` = the promise rejected).  On
success: both handles are replaced, the `error` observer is registered on
the new connection and `connected` is emitted.  On either rejection the
generator throws; the wrapping promise rejects with no handler attached,
so no event is emitted, no observer is registered, and no further
reconnect is scheduled. -/
def reconnectRun (st : ClientConnState) (connectResult : Except Unit Nat)
    (channelResult : Nat → Except Unit Nat) :
    ClientConnState × ConnectTrace :=
  match connectResult with
  | .error _ => (st, ⟨[], [], false, true⟩)
  | .ok conn =>
      match channelResult conn with
      | .error _ => ({ st with connection := some conn }, ⟨[], [], false, true⟩)
      | .ok chan => (⟨some conn, some chan⟩, ⟨[.connected], [], true, false⟩)

/-! ### Close-event cleanup (not present in the sources)

`_connect` in `src/lib/client.js` registers only an `error` observer; the
connection `close` handler (`handleExitOnConnectionClose`) exercised by
`src/test/lib/client.test.js` is not among the source files. -/

/-- Occurrences on the timeline after a connection `close` event. -/
inductive CloseAction
  | emitCloseCleanup
  | cleanupFinished
  | closeClient (force : Bool)
deriving DecidableEq, Repr

/-- Modelled from the spec: the connection close-event handler
(`handleExitOnConnectionClose`) is missing from the sources.  Per spec
§4.1, on a connection close event at time `t` the client emits
`close_cleanup` and starts a grace timer of `processExitCleanupTimeout`;
any `close_cleanup` cleanup handlers finish at `t + cleanupDuration`; when
the grace period elapses — whether or not cleanup has finished — the
client force-closes itself with `close(true)`.  The result lists each
occurrence with its time. -/
def closeEventSchedule (processExitCleanupTimeout t cleanupDuration : Nat) :
    List (Nat × CloseAction) :=
  [(t, .emitCloseCleanup), (t + cleanupDuration, .cleanupFinished),
   (t + processExitCleanupTimeout, .closeClient true)]

/-- Modelled from the spec: `close(true)` additionally terminates the host
process after closing; `close(false)` does not. -/
def closeTerminatesProcess (force : Bool) : Bool := force

/-- The time at which the schedule force-closes the client. -/
def forceCloseTime (sched : List (Nat × CloseAction)) : Option Nat :=
  (sched.find? (fun e => e.2 = CloseAction.closeClient true)).map Prod.fst

/-! ## Theorems -/

/-- C9: any sequence of `addHandler` calls preserves the registry
invariant — queue names are distinct and listed in first-registration
order — and re-registering the same (queue, key) pair replaces the earlier
handler (last-write-wins) without adding a duplicate queue entry. -/
theorem registry_invariant {H : Type} (calls : List (String × String × H))
    (q k : String) (h h' : H) :
    (applyCalls calls).queues.Nodup ∧
    (applyCalls calls).queues = firstSeen (calls.map Prod.fst) ∧
    (addHandler (addHandler (applyCalls calls) q k h) q k h').queues =
      (addHandler (applyCalls calls) q k h).queues ∧
    lookupHandler (addHandler (addHandler (applyCalls calls) q k h) q k h')
      q k = some h' := by
  have hwfe : (Registry.empty H).wf :=
    ⟨rfl, List.nodup_nil, by simp [Registry.empty]⟩
  obtain ⟨hq, _⟩ := foldl_addHandler_queues calls (Registry.empty H) hwfe
  have hq' : (applyCalls calls).queues =
      firstSeenFrom [] (calls.map Prod.fst) := hq
  refine ⟨?_, hq', ?_, lookupHandler_addHandler_self _ q k h'⟩
  · rw [hq']; exact firstSeenFrom_nodup _ _ List.nodup_nil
  · obtain ⟨m, hm⟩ := lookup_addHandler_isSome (applyCalls calls) q k h
    exact addHandler_queues_of_lookup_some _ q k h' m hm

/-- C3: the per-queue dispatch invokes exactly the handler registered for
the message's routing key (with the message content and fields) and no
other; when no handler is registered it emits exactly one `unhandle` event,
invokes no registered handler, and returns an already-succeeded completion,
so the client's consume wrapper acks the message. -/
theorem dispatch_routes_by_key {γ H : Type} (r : Registry H)
    (run : H → γ → Fields → HandlerResult) (queue : String)
    (message : γ) (fields : Fields) :
    (∀ h, lookupHandler r queue fields.routingKey = some h →
        createConsumeHandler r run queue message fields =
          ⟨[h], [], run h message fields⟩) ∧
    (lookupHandler r queue fields.routingKey = none →
        createConsumeHandler r run queue message fields =
          ⟨[], [.unhandle queue message fields], .success⟩ ∧
        ∀ (decode : String → Option γ) (msg : Message) (c : γ),
          decode msg.content = some c → msg.fields = fields →
          (consumeMessage decode
              (fun content flds =>
                (createConsumeHandler r run queue content flds).result)
              msg).actions = [.ack]) := by
  constructor
  · intro h hl
    simp [createConsumeHandler, hl]
  · intro hl
    refine ⟨by simp [createConsumeHandler, hl], ?_⟩
    intro decode msg c hdec hf
    subst hf
    simp [consumeMessage, hdec, createConsumeHandler, hl]

/-- Witness for C3: with handlers registered for (`orders`, `k1`) and
(`orders`, `k2`), a `k2` message invokes only the `k2` handler; an
unrouted key produces one `unhandle` event, a succeeded completion, and an
ack from the consume wrapper. -/
theorem dispatch_routes_by_key_witness :
    createConsumeHandler
        (addHandler (addHandler (Registry.empty Nat) "orders" "k1" 1)
          "orders" "k2" 2)
        (fun _ _ _ => HandlerResult.success) "orders" 5 ⟨"k2"⟩ =
      ⟨[2], [], .success⟩ ∧
    createConsumeHandler
        (addHandler (addHandler (Registry.empty Nat) "orders" "k1" 1)
          "orders" "k2" 2)
        (fun _ _ _ => HandlerResult.success) "orders" 5 ⟨"nope"⟩ =
      ⟨[], [.unhandle "orders" 5 ⟨"nope"⟩], .success⟩ ∧
    (consumeMessage (fun _ => some (5 : Nat))
        (fun content flds =>
          (createConsumeHandler
              (addHandler (addHandler (Registry.empty Nat) "orders" "k1" 1)
                "orders" "k2" 2)
              (fun _ _ _ => HandlerResult.success) "orders" content
              flds).result)
        ⟨"x", ⟨"nope"⟩⟩).actions = [.ack] :=
  ⟨(dispatch_routes_by_key
      (addHandler (addHandler (Registry.empty Nat) "orders" "k1" 1)
        "orders" "k2" 2)
      (fun _ _ _ => HandlerResult.success) "orders" 5 ⟨"k2"⟩).1 2 (by decide),
   ((dispatch_routes_by_key
      (addHandler (addHandler (Registry.empty Nat) "orders" "k1" 1)
        "orders" "k2" 2)
      (fun _ _ _ => HandlerResult.success) "orders" 5 ⟨"nope"⟩).2
        (by decide)).1,
   ((dispatch_routes_by_key
      (addHandler (addHandler (Registry.empty Nat) "orders" "k1" 1)
        "orders" "k2" 2)
      (fun _ _ _ => HandlerResult.success) "orders" 5 ⟨"nope"⟩).2
        (by decide)).2 (fun _ => some 5) ⟨"x", ⟨"nope"⟩⟩ 5 rfl rfl⟩

/-- C1: for every delivered message whose payload decodes successfully, the
consume callback acks on handler success and nacks (requeues) on handler
failure — whether the handler fails by throwing (current client) or by
signalling an error through the completion callback (legacy client) —
issuing exactly one channel acknowledgement per delivery; a handler failure
emits exactly one `consume_error` event (the embedding is a total function:
the error is caught, never propagated out of the consume callback). -/
theorem consume_ack_nack_exclusive {α : Type}
    (decode : String → Option α) (handler : α → Fields → HandlerResult)
    (cbHandler : α → Fields → CbHandlerRun) (message : Message) (c : α)
    (hdec : decode message.content = some c)
    (hsingle : (cbHandler c message.fields).cbCall = none ∨
               (cbHandler c message.fields).throws = false) :
    ((handler c message.fields = .success →
        consumeMessage decode handler message =
          ⟨[.ack], [], [(c, message.fields)]⟩) ∧
     (handler c message.fields = .failure →
        consumeMessage decode handler message =
          ⟨[.nack], [.consumeError .handlerFailed], [(c, message.fields)]⟩) ∧
     (consumeMessage decode handler message).actions.length = 1) ∧
    (((cbHandler c message.fields).fails = false →
        (consumeMessageCb decode cbHandler message).actions = [.ack]) ∧
     ((cbHandler c message.fields).fails = true →
        (consumeMessageCb decode cbHandler message).actions = [.nack]) ∧
     (consumeMessageCb decode cbHandler message).actions.length = 1) := by
  constructor
  · rcases h₁ : handler c message.fields <;>
      simp [consumeMessage, hdec, h₁]
  · rcases h₂ : cbHandler c message.fields with ⟨cb, thr⟩
    rw [h₂] at hsingle
    rcases cb with _ | e
    · rcases thr <;>
        simp [consumeMessageCb, hdec, h₂, CbHandlerRun.fails]
    · rcases hsingle with h | h
      · exact absurd h (by simp)
      · simp only at h
        subst h
        rcases e with _ | u <;>
          simp [consumeMessageCb, hdec, h₂, CbHandlerRun.fails]

/-- Witness for C1: a successfully decoded payload with a succeeding handler
is acked, and one with a legacy handler that throws is nacked. -/
theorem consume_ack_nack_exclusive_witness :
    consumeMessage (fun _ => some (42 : Nat))
        (fun _ _ => .success) ⟨"x", ⟨"k"⟩⟩ =
      ⟨[.ack], [], [(42, ⟨"k"⟩)]⟩ ∧
    (consumeMessageCb (fun _ => some (42 : Nat))
        (fun _ _ => ⟨none, true⟩) ⟨"x", ⟨"k"⟩⟩).actions = [.nack] :=
  ⟨(consume_ack_nack_exclusive (fun _ => some 42) (fun _ _ => .success)
      (fun _ _ => ⟨none, true⟩) ⟨"x", ⟨"k"⟩⟩ 42 rfl (Or.inl rfl)).1.1 rfl,
   (consume_ack_nack_exclusive (fun _ => some 42) (fun _ _ => .success)
      (fun _ _ => ⟨none, true⟩) ⟨"x", ⟨"k"⟩⟩ 42 rfl (Or.inl rfl)).2.2.1 rfl⟩

/-- C2: a delivered message whose payload is not valid JSON is acked (never
requeued), the handler is never invoked, and exactly one `consume_error`
(invalid content) event is emitted. -/
theorem consume_invalid_json_acked {α : Type}
    (decode : String → Option α) (handler : α → Fields → HandlerResult)
    (message : Message) (hdec : decode message.content = none) :
    consumeMessage decode handler message =
      ⟨[.ack], [.consumeError .invalidJson], []⟩ := by
  simp [consumeMessage, hdec]

/-- Witness for C2 at a concrete undecodable payload. -/
theorem consume_invalid_json_acked_witness :
    consumeMessage (fun _ => (none : Option Nat))
        (fun _ _ => .failure) ⟨"not-json", ⟨"k"⟩⟩ =
      ⟨[.ack], [.consumeError .invalidJson], []⟩ :=
  consume_invalid_json_acked (fun _ => none) (fun _ _ => .failure)
    ⟨"not-json", ⟨"k"⟩⟩ rfl

/-- C4: `listen` is idempotent — on a listener that already holds a client,
a second `listen` call returns immediately with the state unchanged and an
empty action trace (no client creation, no `connect` event, no
`setupQueue`, no `consume`), regardless of its `exchange`/`opts`
arguments. -/
theorem listen_idempotent {H : Type} (st : ListenerState) (r : Registry H)
    (injected : Option Nat) (cid : Nat) (exchange : String) (opts : Nat)
    (c : Nat) (hc : st.client = some c) :
    listen st r injected cid exchange opts = (st, []) := by
  simp [listen, hc]

/-- Witness for C4: a listener already holding client 3 ignores a second
`listen`, whatever the exchange and options. -/
theorem listen_idempotent_witness :
    listen ⟨some 3⟩ (addHandler (Registry.empty Nat) "q" "k" 1)
      none 9 "other-exchange" 5 = (⟨some 3⟩, []) :=
  listen_idempotent ⟨some 3⟩ (addHandler (Registry.empty Nat) "q" "k" 1)
    none 9 "other-exchange" 5 3 rfl

/-- C8: activating an idle listener produces, for every queue in registry
order, one `setupQueue` call per routing key registered under that queue
followed by exactly one `consume` call for the queue (never one per key). -/
theorem listen_setup_per_key_consume_per_queue {H : Type}
    (r : Registry H) (injected : Option Nat) (cid : Nat)
    (exchange : String) (opts : Nat) (hwf : r.wf) :
    (listen ⟨none⟩ r injected cid exchange opts).2 =
      (if injected.isSome then [] else [LAction.createClient]) ++
        [LAction.emitConnect, LAction.subscribeConsumeError] ++
        r.queues.flatMap (fun q =>
          (queueKeys r q).map (fun k => LAction.setupQueue exchange q k opts) ++
            [LAction.consume q]) ∧
    (∀ q ∈ r.queues,
      ((listen ⟨none⟩ r injected cid exchange opts).2).count
        (LAction.consume q) = 1) ∧
    (∀ q k, q ∈ r.queues → k ∈ queueKeys r q →
      ((listen ⟨none⟩ r injected cid exchange opts).2).count
        (LAction.setupQueue exchange q k opts) = 1) := by
  have htr : (listen ⟨none⟩ r injected cid exchange opts).2 =
      (if injected.isSome then [] else [LAction.createClient]) ++
        [LAction.emitConnect, LAction.subscribeConsumeError] ++
        r.queues.flatMap (fun q =>
          (queueKeys r q).map (fun k => LAction.setupQueue exchange q k opts) ++
            [LAction.consume q]) := by
    simp [listen]
  refine ⟨htr, ?_, ?_⟩
  · intro q hq
    rw [htr, List.count_append, List.count_append]
    have hpre : ((if injected.isSome then []
        else [LAction.createClient]) : List LAction).count
          (LAction.consume q) = 0 := by
      rcases injected <;> simp
    have hmid : ([LAction.emitConnect,
        LAction.subscribeConsumeError] : List LAction).count
          (LAction.consume q) = 0 := by simp
    rw [hpre, hmid]
    rw [count_bind_one r.queues _ _ q hwf.2.1 hq ?_ ?_]
    · rw [List.count_append]
      have h1 : ((queueKeys r q).map
          (fun k => LAction.setupQueue exchange q k opts)).count
            (LAction.consume q) = 0 :=
        List.count_eq_zero.mpr (by simp)
      have h2 : ([LAction.consume q] : List LAction).count
          (LAction.consume q) = 1 := by simp
      omega
    · intro x hx hxq
      rw [List.count_append]
      have h1 : ((queueKeys r x).map
          (fun k => LAction.setupQueue exchange x k opts)).count
            (LAction.consume q) = 0 :=
        List.count_eq_zero.mpr (by simp)
      have h2 : ([LAction.consume x] : List LAction).count
          (LAction.consume q) = 0 :=
        List.count_eq_zero.mpr (by simp; exact Ne.symm hxq)
      omega
  · intro q k hq hk
    rw [htr, List.count_append, List.count_append]
    have hpre : ((if injected.isSome then []
        else [LAction.createClient]) : List LAction).count
          (LAction.setupQueue exchange q k opts) = 0 := by
      rcases injected <;> simp
    have hmid : ([LAction.emitConnect,
        LAction.subscribeConsumeError] : List LAction).count
          (LAction.setupQueue exchange q k opts) = 0 := by simp
    rw [hpre, hmid]
    rw [count_bind_one r.queues _ _ q hwf.2.1 hq ?_ ?_]
    · rw [List.count_append]
      have h1 : ((queueKeys r q).map
          (fun k2 => LAction.setupQueue exchange q k2 opts)).count
            (LAction.setupQueue exchange q k opts) = 1 := by
        show ((queueKeys r q).map
            (fun k2 => LAction.setupQueue exchange q k2 opts)).count
          ((fun k2 => LAction.setupQueue exchange q k2 opts) k) = 1
        rw [count_map_of_inj (queueKeys r q)
          (fun k2 => LAction.setupQueue exchange q k2 opts)
          (fun a b hab => by simpa using hab) k]
        exact count_eq_one_of_nodup_mem (queueKeys_nodup hwf q) hk
      have h2 : ([LAction.consume q] : List LAction).count
          (LAction.setupQueue exchange q k opts) = 0 := by simp
      omega
    · intro x hx hxq
      rw [List.count_append]
      have h1 : ((queueKeys r x).map
          (fun k2 => LAction.setupQueue exchange x k2 opts)).count
            (LAction.setupQueue exchange q k opts) = 0 :=
        List.count_eq_zero.mpr (by simp; exact fun _ => hxq)
      have h2 : ([LAction.consume x] : List LAction).count
          (LAction.setupQueue exchange q k opts) = 0 := by simp
      omega

/-- Witness for C8: a registry with two keys on `orders` and one on
`billing` is activated with one consume per queue and one setup per
(queue, key) pair. -/
theorem listen_setup_per_key_consume_per_queue_witness :
    ((listen ⟨none⟩
        (addHandler (addHandler (addHandler (Registry.empty Nat)
          "orders" "k1" 1) "orders" "k2" 2) "billing" "k3" 3)
        none 7 "ex" 0).2).count (LAction.consume "orders") = 1 ∧
    ((listen ⟨none⟩
        (addHandler (addHandler (addHandler (Registry.empty Nat)
          "orders" "k1" 1) "orders" "k2" 2) "billing" "k3" 3)
        none 7 "ex" 0).2).count (LAction.setupQueue "ex" "orders" "k2" 0) = 1 :=
  ⟨(listen_setup_per_key_consume_per_queue
      (addHandler (addHandler (addHandler (Registry.empty Nat)
        "orders" "k1" 1) "orders" "k2" 2) "billing" "k3" 3)
      none 7 "ex" 0 (by decide)).2.1 "orders" (by decide),
   (listen_setup_per_key_consume_per_queue
      (addHandler (addHandler (addHandler (Registry.empty Nat)
        "orders" "k1" 1) "orders" "k2" 2) "billing" "k3" 3)
      none 7 "ex" 0 (by decide)).2.2 "orders" "k2" (by decide) (by decide)⟩


/-- C5: a connection-level error event whose payload is the spurious
event-emitter artifact is ignored entirely (no event, no reconnect);
any other payload makes the client emit exactly one `connection_error`
event and schedule exactly one reconnect after the configured
(defaulted) reconnect delay. -/
theorem disconnection_filter_and_reconnect (hb rt : Option Nat)
    (err : JsErrPayload) :
    (err.ctor = .eventEmitterCtor →
      onDisconnection (resolveOptions hb rt) err = []) ∧
    (err.ctor ≠ .eventEmitterCtor →
      onDisconnection (resolveOptions hb rt) err =
        [.emitConnectionError,
         .scheduleReconnect (resolveOptions hb rt).reconnectTimeout] ∧
      (onDisconnection (resolveOptions hb rt) err).count
        .emitConnectionError = 1 ∧
      (onDisconnection (resolveOptions hb rt) err).countP
        (fun a => match a with
          | .scheduleReconnect _ => true
          | _ => false) = 1) := by
  constructor
  · intro h
    simp [onDisconnection, h]
  · intro h
    refine ⟨by simp [onDisconnection, h], ?_, ?_⟩ <;>
      simp [onDisconnection, h, List.count_cons, List.countP_cons]

/-- Witness for C5: the spurious emitter-shaped payload is dropped; an
`Error`-shaped payload triggers one event and one reconnect scheduled after
the default 1000 ms delay. -/
theorem disconnection_filter_and_reconnect_witness :
    onDisconnection (resolveOptions none none) ⟨.eventEmitterCtor⟩ = [] ∧
    onDisconnection (resolveOptions none none) ⟨.errorCtor⟩ =
      [.emitConnectionError, .scheduleReconnect 1000] :=
  ⟨(disconnection_filter_and_reconnect none none ⟨.eventEmitterCtor⟩).1 rfl,
   ((disconnection_filter_and_reconnect none none ⟨.errorCtor⟩).2
      (by decide)).1⟩

/-- C6 (evidence): `close` on an open client sets both handles to `null`,
but `close` on an already-closed client (connection `null`) is not a no-op:
reading `.close` of `null` throws a `TypeError`, contradicting the
idempotence asserted by the spec and by the repository's own test
("should be idempotent" in src/test/lib/client.test.js). -/
theorem close_nulls_handles_but_throws_when_closed :
    (∀ conn chan, close ⟨some conn, chan⟩ = .ok ⟨none, none⟩) ∧
    close ⟨none, none⟩ = .error .typeError :=
  ⟨fun _ _ => rfl, rfl⟩

/-- C7 (spec-modelled): after a connection close event at time `t`, the
`close_cleanup` event fires at `t`, and the force-close (`close(true)`,
which terminates the process) fires exactly at `t + timeout` — not before,
not indefinitely after — independently of how long the cleanup handlers
take. -/
theorem close_event_force_close_at_timeout (timeout t d e : Nat) :
    (t, CloseAction.emitCloseCleanup) ∈ closeEventSchedule timeout t d ∧
    forceCloseTime (closeEventSchedule timeout t d) = some (t + timeout) ∧
    forceCloseTime (closeEventSchedule timeout t d) =
      forceCloseTime (closeEventSchedule timeout t e) ∧
    closeTerminatesProcess true = true := by
  refine ⟨by simp [closeEventSchedule], ?_, ?_, rfl⟩ <;>
    simp [closeEventSchedule, forceCloseTime, List.find?]

/-- C10: when a scheduled reconnect attempt itself fails — the transport
connect or the channel creation rejects — the client emits no event,
registers no error observer, and schedules no further reconnect: the
rejection escapes unhandled and the reconnection state machine ends. -/
theorem failed_reconnect_terminal (st : ClientConnState)
    (connectResult : Except Unit Nat)
    (channelResult : Nat → Except Unit Nat)
    (hfail : connectResult = .error () ∨
      ∃ conn, connectResult = .ok conn ∧ channelResult conn = .error ()) :
    (reconnectRun st connectResult channelResult).2.events = [] ∧
    (reconnectRun st connectResult channelResult).2.scheduledReconnects
      = [] ∧
    (reconnectRun st connectResult channelResult).2.errorObserverRegistered
      = false ∧
    (reconnectRun st connectResult channelResult).2.rejected = true := by
  rcases hfail with h | ⟨conn, hc, hch⟩
  · subst h
    simp [reconnectRun]
  · subst hc
    simp [reconnectRun, hch]

/-- Witness for C10: a reconnect whose channel creation rejects emits
nothing and schedules nothing. -/
theorem failed_reconnect_terminal_witness :
    (reconnectRun ⟨none, none⟩ (.ok 4) (fun _ => .error ())).2.events = [] ∧
    (reconnectRun ⟨none, none⟩ (.ok 4)
      (fun _ => .error ())).2.scheduledReconnects = [] ∧
    (reconnectRun ⟨none, none⟩ (.ok 4)
      (fun _ => .error ())).2.errorObserverRegistered = false ∧
    (reconnectRun ⟨none, none⟩ (.ok 4) (fun _ => .error ())).2.rejected
      = true :=
  failed_reconnect_terminal ⟨none, none⟩ (.ok 4) (fun _ => .error ())
    (Or.inr ⟨4, rfl, rfl⟩)

end AmqpBus
